import Mathlib

/-!
Verification of the audio pipeline implemented by class AudioEngine in
src/audio_engine.py (8 kHz / 8-bit voice capture, conditioning,
synthesis and transcription).

Modelling conventions:
* Python floats are modelled as exact rationals; the sample buffers of
  the pipeline are lists of rationals, and the tone generator (which
  evaluates a sine) produces lists of reals.
* External collaborators — the sound device (sounddevice), the scipy
  high-pass filter, the librosa trim and pitch-shift routines, the
  numpy random dither source, the file system and the Google speech
  recognizer — are modelled as explicit function parameters gathered
  in an environment record `Env`.  Their outcomes are arbitrary.
* A Python exception is modelled by `Except.error` carrying the
  message; the catch-all boundary of `proceso_completo` turns every
  error into a structured failure result, so the Lean model of
  `proceso_completo` is a total function.
-/

/-- Python `int(x)` applied to a float truncates toward zero. -/
def pyInt (q : ℚ) : ℤ := if 0 ≤ q then ⌊q⌋ else ⌈q⌉

-- Constants fixed in AudioEngine.__init__ (sample_rate defaults to 8000).
def fs : ℚ := 8000

def pre_emphasis_coef : ℚ := 97 / 100

def preroll_duration : ℚ := 1 / 2

def warmup_duration : ℚ := 3 / 10

def trim_threshold_db : ℚ := 15

-- sintetizar_voz, PASO 2: normalization_factor = 10 ** (target_db / 20.0)
-- with target_db = -1.0.  The Python value is the double closest to
-- 10 ** (-1/20) ≈ 0.8913; floats being modelled as exact rationals, we use
-- its (round-tripping) decimal value.  No claim depends on the exact digits.
def normalization_factor : ℚ := 8912509381337456 / 10000000000000000

-- sintetizar_voz, PASO 3: dither_amplitude = 1.0 / (2 * 256)  (half an LSB).
def dither_amplitude : ℚ := 1 / (2 * 256)

/-- Peak absolute amplitude `np.max(np.abs(y))` of a non-empty buffer,
extended with value 0 on the empty buffer (callers that reach it with an
empty buffer are modelled through `pyMaxAbs` below, which raises). -/
def peakAbs (y : List ℚ) : ℚ := y.foldr (fun x m => max |x| m) 0

/-- Model of `np.max(np.abs(y))`: numpy raises a ValueError on an empty
array (zero-size reduction), otherwise returns the peak absolute value. -/
def pyMaxAbs (y : List ℚ) : Except String ℚ :=
  match y with
  | [] => .error "zero-size array to reduction operation maximum which has no identity"
  | _ :: _ => .ok (peakAbs y)

/-- Step 4 of procesar_audio:
`y_preemph = np.append(y[0], y[1:] - self.pre_emphasis_coef * y[:-1])`.
On an empty array the indexing `y[0]` raises an IndexError. -/
def preemphasis (c : ℚ) (y : List ℚ) : Except String (List ℚ) :=
  match y with
  | [] => .error "index 0 is out of bounds for axis 0 with size 0"
  | y0 :: rest =>
      .ok (y0 :: List.zipWith (fun a b => a - c * b) rest ((y0 :: rest).dropLast))

/-- Step 5 of procesar_audio:
`if np.max(np.abs(y_preemph)) > 0: y_preemph = y_preemph / np.max(np.abs(y_preemph)) * 0.95`. -/
def normalizar_095 (y : List ℚ) : Except String (List ℚ) :=
  match pyMaxAbs y with
  | .error e => .error e
  | .ok m => .ok (if 0 < m then y.map (fun x => x / m * (95 / 100)) else y)

/-- Number of samples requested from the device by grabar_audio:
`total_samples = int((duracion + self.preroll_duration) * self.fs)`. -/
def pyTotalSamples (duracion : ℚ) : ℕ :=
  (pyInt ((duracion + preroll_duration) * fs)).toNat

/-- grabar_audio: configures low latency, then performs one blocking
capture of `pyTotalSamples duracion` samples and returns the flattened
raw buffer.  The device is the external function `rec`. -/
def grabar_audio (rec : ℕ → Except String (List ℚ)) (duracion : ℚ) :
    Except String (List ℚ) :=
  rec (pyTotalSamples duracion)

/-- State of an AudioEngine instance relevant to the claims:
`self.current_audio_processed`, initialised to None in __init__ and
assigned only in step 4 of proceso_completo. -/
structure EngineState where
  current_audio_processed : Option (List ℚ)
deriving DecidableEq

/-- Engine state right after __init__. -/
def EngineState.init : EngineState := { current_audio_processed := none }

/-- External collaborators of the pipeline.  Every field models one
side-effecting call the Python code makes; `Except.error` models the
call raising an exception. -/
structure Env where
  /-- warmup_audio_buffer: open and close a 300 ms silent input stream. -/
  warmup : Except String Unit
  /-- cuenta_regresiva: countdown with beeps (sd.play / sd.wait). -/
  countdown : Except String Unit
  /-- sd.rec n followed by sd.wait: record n mono samples. -/
  sdRec : ℕ → Except String (List ℚ)
  /-- scipy filtfilt of the 3rd-order 80 Hz butter high-pass filter. -/
  filtfilt : List ℚ → Except String (List ℚ)
  /-- librosa.effects.trim with top_db = 15: index pair (start, end);
  the trimmed signal returned by librosa is `y[start:end]`. -/
  trim : List ℚ → ℕ × ℕ
  /-- sf.write of the PCM_U8 wav file (guardar_audio). -/
  writeWav : String → List ℚ → Except String Unit
  /-- np.savetxt of the csv sample dump (guardar_matriz_csv). -/
  writeCsv : String → List ℚ → Except String Unit
  /-- Recognizer.record + recognize_google on (file path, language). -/
  recognize : String → String → Except String String
  /-- open(ruta_txt, "w").write(texto). -/
  writeTxt : String → String → Except String Unit
  /-- librosa.effects.pitch_shift with n_steps = 2.0, bins_per_octave = 12. -/
  pitchShift : List ℚ → Except String (List ℚ)
  /-- i-th draw of np.random.uniform(-dither_amplitude, dither_amplitude, n). -/
  ditherSample : ℕ → ℚ
  /-- sd.play + sd.wait (reproducir_audio). -/
  play : List ℚ → Except String Unit

/-- procesar_audio: high-pass filter, dynamic trim, pre-emphasis, peak
normalization.  Returns (audio_procesado, duracion_real, inicio_ms). -/
def procesar_audio (env : Env) (audio_raw : List ℚ) :
    Except String (List ℚ × ℚ × ℚ) :=
  match env.filtfilt audio_raw with
  | .error e => .error e
  | .ok yf =>
    let se := env.trim yf
    let y := (yf.drop se.1).take (se.2 - se.1)
    let inicio_ms := ((se.1 : ℚ) / fs) * 1000
    let duracion_real := (y.length : ℚ) / fs
    match preemphasis pre_emphasis_coef y with
    | .error e => .error e
    | .ok yp =>
      match normalizar_095 yp with
      | .error e => .error e
      | .ok yn => .ok (yn, duracion_real, inicio_ms)

/-- transcribir_audio: the whole body is wrapped in try/except, so any
failure of the recognizer yields None rather than an exception. -/
def transcribir_audio (recognize : String → String → Except String String)
    (filepath_wav idioma : String) : Option String :=
  match recognize filepath_wav idioma with
  | .ok text => some text
  | .error _ => none

/-- np.clip(x, -1.0, 1.0). -/
def clip1 (x : ℚ) : ℚ := max (-1) (min 1 x)

/-- sintetizar_voz: pitch shift (external), -1 dB peak normalization,
dither addition, hard clip to [-1, 1]. -/
def sintetizar_voz (env : Env) (audio_original : List ℚ) :
    Except String (List ℚ) :=
  match env.pitchShift audio_original with
  | .error e => .error e
  | .ok y_synth =>
    match pyMaxAbs y_synth with
    | .error e => .error e
    | .ok m =>
      let y_norm := if 0 < m
        then y_synth.map (fun x => x / m * normalization_factor)
        else y_synth
      let noise := (List.range y_norm.length).map env.ditherSample
      let y_dith := List.zipWith (fun a b => a + b) y_norm noise
      .ok (y_dith.map clip1)

/-- The structured dictionary returned by proceso_completo.  On success
Python includes the four paths, the processed buffer, the real duration
and the onset offset; on failure it includes the error text and the
stored current_audio_processed (possibly None). -/
structure PipelineResult where
  success : Bool
  wav : Option String
  csv : Option String
  txt : Option String
  synth : Option String
  audio_procesado : Option (List ℚ)
  duracion : Option ℚ
  inicio_ms : Option ℚ
  error : Option String
deriving DecidableEq

/-- Events of one run that the claims talk about: whether transcription
and synthesis were reached, and whether the transcript file was written. -/
structure RunEvents where
  transcribeInvoked : Bool
  synthInvoked : Bool
  txtWritten : Bool
deriving DecidableEq

def RunEvents.none : RunEvents :=
  { transcribeInvoked := false, synthInvoked := false, txtWritten := false }

/-- Failure dictionary built in the except-branch of proceso_completo. -/
def fallo (e : String) (st : EngineState) : PipelineResult :=
  { success := false, wav := Option.none, csv := Option.none,
    txt := Option.none, synth := Option.none,
    audio_procesado := st.current_audio_processed,
    duracion := Option.none, inicio_ms := Option.none, error := some e }

/-- proceso_completo: the pipeline entry point.  Returns the result
dictionary, the engine state after the run, and the run events.
Mirrors steps 1-10 of the Python code; every raised error falls to the
single except-branch producing `fallo`. -/
def proceso_completo (env : Env) (st : EngineState) (nombre_base : String)
    (duracion : ℚ) (output_folder : String) :
    PipelineResult × EngineState × RunEvents :=
  let ruta_wav := output_folder ++ "/" ++ nombre_base ++ ".wav"
  let ruta_csv := output_folder ++ "/" ++ nombre_base ++ "_matriz.csv"
  let ruta_txt := output_folder ++ "/" ++ nombre_base ++ ".txt"
  let ruta_synth := output_folder ++ "/" ++ nombre_base ++ "_synth.wav"
  match env.warmup with
  | .error e => (fallo e st, st, RunEvents.none)
  | .ok _ =>
  match env.countdown with
  | .error e => (fallo e st, st, RunEvents.none)
  | .ok _ =>
  match grabar_audio env.sdRec duracion with
  | .error e => (fallo e st, st, RunEvents.none)
  | .ok audio_raw =>
  match procesar_audio env audio_raw with
  | .error e => (fallo e st, st, RunEvents.none)
  | .ok (audio_procesado, duracion_real, inicio_ms) =>
  let st1 : EngineState := { current_audio_processed := some audio_procesado }
  match env.writeWav ruta_wav audio_procesado with
  | .error e => (fallo e st1, st1, RunEvents.none)
  | .ok _ =>
  match env.writeCsv ruta_csv audio_procesado with
  | .error e => (fallo e st1, st1, RunEvents.none)
  | .ok _ =>
  let texto := transcribir_audio env.recognize ruta_wav "es-MX"
  let ev1 : RunEvents := { RunEvents.none with transcribeInvoked := true }
  let cont := fun (ev : RunEvents) =>
    let ev := { ev with synthInvoked := true }
    match sintetizar_voz env audio_procesado with
    | .error e => (fallo e st1, st1, ev)
    | .ok audio_synth =>
    match env.writeWav ruta_synth audio_synth with
    | .error e => (fallo e st1, st1, ev)
    | .ok _ =>
    match env.play audio_synth with
    | .error e => (fallo e st1, st1, ev)
    | .ok _ =>
      ({ success := true, wav := some ruta_wav, csv := some ruta_csv,
         txt := some ruta_txt, synth := some ruta_synth,
         audio_procesado := some audio_procesado,
         duracion := some duracion_real, inicio_ms := some inicio_ms,
         error := Option.none }, st1, ev)
  match texto with
  | Option.none => cont ev1
  | some t =>
    if t = "" then cont ev1
    else
      match env.writeTxt ruta_txt t with
      | .error e => (fallo e st1, st1, ev1)
      | .ok _ => cont { ev1 with txtWritten := true }

/-- Outcome of the conditioning prefix of a run (warm-up, countdown,
capture, procesar_audio): `some a` when procesar_audio completed with
processed buffer `a`, `none` when the run aborts before that point. -/
def conditioning_result (env : Env) (duracion : ℚ) : Option (List ℚ) :=
  match env.warmup with
  | .error _ => Option.none
  | .ok _ =>
  match env.countdown with
  | .error _ => Option.none
  | .ok _ =>
  match grabar_audio env.sdRec duracion with
  | .error _ => Option.none
  | .ok audio_raw =>
  match procesar_audio env audio_raw with
  | .error _ => Option.none
  | .ok (a, _, _) => some a

/-- Arguments of one call to proceso_completo. -/
structure RunArgs where
  env : Env
  nombre : String
  duracion : ℚ
  carpeta : String

/-- Engine state after a sequence of proceso_completo calls on the same
instance. -/
def run_sequence (st : EngineState) (runs : List RunArgs) : EngineState :=
  runs.foldl
    (fun s r => (proceso_completo r.env s r.nombre r.duracion r.carpeta).2.1) st

/-- np.linspace(a, b, n) with endpoint=True: n evenly spaced values from
a to b; a single point for n = 1, the empty array for n = 0. -/
noncomputable def linspace (a b : ℚ) (n : ℕ) : List ℝ :=
  if n = 1 then [(a : ℝ)]
  else (List.range n).map
    (fun (k : ℕ) => (a : ℝ) + ((b : ℝ) - (a : ℝ)) * (k : ℝ) / ((n : ℝ) - 1))

/-- In-place slice assignment `beep[:fade] *= np.linspace(0, 1, fade)`:
the first `m` samples are multiplied by the linear fade-in ramp. -/
noncomputable def applyFadeIn (m : ℕ) (l : List ℝ) : List ℝ :=
  List.zipWith (fun x c => x * c) (l.take m) (linspace 0 1 m) ++ l.drop m

/-- In-place slice assignment `beep[-fade:] *= np.linspace(1, 0, fade)`:
the last `m` samples are multiplied by the linear fade-out ramp. -/
noncomputable def applyFadeOut (m : ℕ) (l : List ℝ) : List ℝ :=
  l.take (l.length - m) ++
    List.zipWith (fun x c => x * c) (l.drop (l.length - m)) (linspace 1 0 m)

/-- generar_beep: sine tone `0.3 * sin(2 pi f t)` over
`t = np.linspace(0, duracion, int(fs * duracion))`, with linear fade-in
and fade-out of `fade = int(fs * 0.01)` samples.  When the buffer is
shorter than `fade`, the in-place multiplication of `beep[:fade]` by the
`fade`-element ramp is a numpy broadcast error, which we model by an
explicit error value. -/
noncomputable def generar_beep (frecuencia duracion : ℚ) : Except String (List ℝ) :=
  let n := (pyInt (fs * duracion)).toNat
  let t := linspace 0 duracion n
  let beep := t.map (fun x => 0.3 * Real.sin (2 * Real.pi * (frecuencia : ℝ) * x))
  let fade := (pyInt (fs * (1 / 100))).toNat
  if beep.length < fade then
    .error "operands could not be broadcast together"
  else
    .ok (applyFadeOut fade (applyFadeIn fade beep))

/-- Environment in which every external call succeeds blandly; concrete
runs below adjust individual fields. -/
def envBase : Env :=
  { warmup := .ok (), countdown := .ok (),
    sdRec := fun n => .ok (List.replicate n 0),
    filtfilt := fun y => .ok y,
    trim := fun y => (0, y.length),
    writeWav := fun _ _ => .ok (), writeCsv := fun _ _ => .ok (),
    recognize := fun _ _ => .error "audio no reconocido",
    writeTxt := fun _ _ => .ok (),
    pitchShift := fun y => .ok y,
    ditherSample := fun _ => 0,
    play := fun _ => .ok () }

/-- A fully silent capture: the device delivers an all-zero buffer and
the trim stage finds the whole signal below threshold, so the trimmed
region is empty (start = end = 0). -/
def envSilencio : Env := { envBase with trim := fun _ => (0, 0) }

/-- A run in which every stage succeeds and the recognizer returns a
non-empty transcript. -/
def envTx : Env :=
  { envBase with
    sdRec := fun _ => .ok [1],
    recognize := fun _ _ => .ok "hola mundo",
    pitchShift := fun _ => .ok [0] }

/-- A run that dies at warm-up: the capture device cannot be opened. -/
def envFalla : Env := { envBase with warmup := .error "dispositivo no disponible" }

/-- Synthesis on a tiny buffer with a deliberately huge dither draw,
used to exercise the hard clip. -/
def envRango : Env :=
  { envBase with pitchShift := fun _ => .ok [0], ditherSample := fun _ => 2 }

/-- Synthesis whose pitch-shifted signal is constant zero and whose
dither draws are 1/1000. -/
def envDit : Env :=
  { envBase with pitchShift := fun _ => .ok [0, 0], ditherSample := fun _ => 1 / 1000 }

-- ------------------------------------------------------------------ --
-- Helper lemmas
-- ------------------------------------------------------------------ --

theorem pyInt_mono {x y : ℚ} (h : x ≤ y) : pyInt x ≤ pyInt y := by
  unfold pyInt
  split <;> split
  · exact Int.floor_le_floor h
  · rename_i hx hy; exact absurd (le_trans hx h) hy
  · rename_i hx hy
    have h1 : ⌈x⌉ ≤ 0 := Int.ceil_le.mpr (by exact_mod_cast le_of_not_le hx)
    exact le_trans h1 (Int.le_floor.mpr (by exact_mod_cast hy))
  · exact Int.ceil_le_ceil h

theorem peakAbs_cons (a : ℚ) (l : List ℚ) : peakAbs (a :: l) = max |a| (peakAbs l) := rfl

theorem peakAbs_nonneg (y : List ℚ) : 0 ≤ peakAbs y := by
  induction y with
  | nil => simp [peakAbs]
  | cons a l ih => exact le_trans ih (by rw [peakAbs_cons]; exact le_max_right _ _)

theorem abs_le_peakAbs {x : ℚ} {y : List ℚ} (h : x ∈ y) : |x| ≤ peakAbs y := by
  induction y with
  | nil => cases h
  | cons a l ih =>
    rw [peakAbs_cons]
    rcases List.mem_cons.mp h with rfl | h2
    · exact le_max_left _ _
    · exact le_trans (ih h2) (le_max_right _ _)

theorem peakAbs_le {y : List ℚ} {c : ℚ} (hc : 0 ≤ c) (h : ∀ x ∈ y, |x| ≤ c) :
    peakAbs y ≤ c := by
  induction y with
  | nil => simpa [peakAbs] using hc
  | cons a l ih =>
    rw [peakAbs_cons]
    exact max_le (h a (by simp)) (ih fun x hx => h x (by simp [hx]))

theorem peakAbs_map_mul (y : List ℚ) (k : ℚ) (hk : 0 ≤ k) :
    peakAbs (y.map (fun x => x * k)) = peakAbs y * k := by
  induction y with
  | nil => simp [peakAbs]
  | cons a l ih =>
    simp only [List.map_cons, peakAbs_cons, ih, abs_mul, abs_of_nonneg hk]
    rw [max_mul_of_nonneg _ _ hk]

theorem peakAbs_eq_zero_of_all_zero {y : List ℚ} (h : ∀ x ∈ y, x = 0) :
    peakAbs y = 0 :=
  le_antisymm (peakAbs_le le_rfl fun x hx => by simp [h x hx]) (peakAbs_nonneg y)

theorem of_mem_zipWith {α β γ : Type} {f : α → β → γ} {as : List α} {bs : List β}
    {x : γ} (h : x ∈ List.zipWith f as bs) : ∃ a ∈ as, ∃ b ∈ bs, x = f a b := by
  induction as generalizing bs with
  | nil => simp at h
  | cons a as ih =>
    cases bs with
    | nil => simp at h
    | cons b bs =>
      rcases List.mem_cons.mp h with rfl | h2
      · exact ⟨a, by simp, b, by simp, rfl⟩
      · rcases ih h2 with ⟨a2, ha, b2, hb, rfl⟩
        exact ⟨a2, by simp [ha], b2, by simp [hb], rfl⟩

-- ------------------------------------------------------------------ --
-- Claims
-- ------------------------------------------------------------------ --

/-- C3: the capture stage asks the device for exactly
int((duracion + 0.5) * 8000) samples and hands back the recorded buffer
unchanged; the 500 ms pre-roll is added to (never subtracted from) the
requested duration, and a 3 second request captures 28000 samples. -/
theorem grabar_audio_preroll (rec : ℕ → Except String (List ℚ)) (duracion : ℚ) :
    grabar_audio rec duracion = rec ((pyInt ((duracion + 1/2) * 8000)).toNat) ∧
    pyInt (duracion * fs) ≤ pyInt ((duracion + preroll_duration) * fs) ∧
    pyTotalSamples 3 = 28000 := by
  refine ⟨rfl, pyInt_mono ?_, ?_⟩
  · have h : (0:ℚ) < fs := by norm_num [fs]
    have h2 : (0:ℚ) < preroll_duration := by norm_num [preroll_duration]
    nlinarith
  · norm_num [pyTotalSamples, pyInt, preroll_duration, fs]
    rfl

/-- C4: pre-emphasis on a non-empty buffer succeeds, preserves the
length, keeps the first sample, and every sample at index n >= 1 equals
input n minus 0.97 times input n-1. -/
theorem preemphasis_spec (y : List ℚ) (hy : y ≠ []) :
    ∃ out, preemphasis pre_emphasis_coef y = .ok out ∧
      out.length = y.length ∧ out.head? = y.head? ∧
      ∀ n a b, 0 < n → y[n]? = some a → y[n-1]? = some b →
        out[n]? = some (a - 97/100 * b) := by
  match y, hy with
  | y0 :: rest, _ =>
    refine ⟨_, rfl, ?_, rfl, ?_⟩
    · simp [List.length_zipWith]
    · intro n a b hn ha hb
      obtain ⟨m, rfl⟩ : ∃ m, n = m + 1 := ⟨n - 1, (Nat.succ_pred_eq_of_pos hn).symm⟩
      have hlt : m + 1 < (y0 :: rest).length := by
        rcases List.getElem?_eq_some_iff.mp ha with ⟨h, _⟩
        exact h
      rw [List.getElem?_cons_succ]
      rw [List.getElem?_cons_succ] at ha
      have hdl : (y0 :: rest).dropLast[m]? = some b := by
        rw [List.getElem?_dropLast,
          if_pos (by simp only [List.length_cons] at hlt ⊢; omega)]
        simpa using hb
      rw [List.getElem?_zipWith_eq_some]
      exact ⟨a, b, ha, hdl, by norm_num [pre_emphasis_coef]⟩

/-- C4 witness: the theorem evaluated on the buffer [1, 2, 5]. -/
theorem preemphasis_spec_witness :
    ∃ out, preemphasis pre_emphasis_coef [1, 2, 5] = .ok out ∧
      out.length = ([1, 2, 5] : List ℚ).length ∧
      out.head? = ([1, 2, 5] : List ℚ).head? ∧
      ∀ n a b, 0 < n → ([1, 2, 5] : List ℚ)[n]? = some a →
        ([1, 2, 5] : List ℚ)[n-1]? = some b →
        out[n]? = some (a - 97/100 * b) :=
  preemphasis_spec [1, 2, 5] (by simp)

/-- C5: the normalization step of the signal conditioner never produces
a peak above 0.95: on a buffer with positive peak it rescales the buffer
so the peak is exactly 0.95, and on a buffer of peak 0 (all zero) it
returns the buffer unchanged. -/
theorem normalizar_095_spec (y : List ℚ) (hy : y ≠ []) :
    ∃ out, normalizar_095 y = .ok out ∧ peakAbs out ≤ 95/100 ∧
      (if 0 < peakAbs y then peakAbs out = 95/100 else out = y) := by
  match y, hy with
  | y0 :: rest, _ =>
    have hmap : ((y0 :: rest).map fun x => x / peakAbs (y0 :: rest) * (95/100)) =
        ((y0 :: rest).map fun x => x * (95/100 / peakAbs (y0 :: rest))) :=
      List.map_congr_left fun x _ => by rw [div_mul_eq_mul_div, mul_div_assoc]
    refine ⟨_, rfl, ?_, ?_⟩ <;> by_cases hpos : 0 < peakAbs (y0 :: rest)
    · have hne : peakAbs (y0 :: rest) ≠ 0 := ne_of_gt hpos
      rw [if_pos hpos, hmap,
        peakAbs_map_mul _ _ (div_nonneg (by norm_num) (le_of_lt hpos))]
      rw [mul_comm, div_mul_cancel₀ _ hne]
    · rw [if_neg hpos]
      have h0 : peakAbs (y0 :: rest) = 0 :=
        le_antisymm (not_lt.mp hpos) (peakAbs_nonneg _)
      rw [h0]; norm_num
    · have hne : peakAbs (y0 :: rest) ≠ 0 := ne_of_gt hpos
      rw [if_pos hpos, if_pos hpos, hmap,
        peakAbs_map_mul _ _ (div_nonneg (by norm_num) (le_of_lt hpos))]
      rw [mul_comm, div_mul_cancel₀ _ hne]
    · rw [if_neg hpos, if_neg hpos]

/-- C5 witness: the theorem evaluated on the buffer [1/2, -2]. -/
theorem normalizar_095_spec_witness :
    ∃ out, normalizar_095 [1/2, -2] = .ok out ∧ peakAbs out ≤ 95/100 ∧
      (if 0 < peakAbs [1/2, -2] then peakAbs out = 95/100
       else out = [1/2, -2]) :=
  normalizar_095_spec [1/2, -2] (by simp)

theorem clip1_bounds (x : ℚ) : -1 ≤ clip1 x ∧ clip1 x ≤ 1 :=
  ⟨le_max_left _ _, max_le (by norm_num) (min_le_left _ _)⟩

/-- C6: whatever the pitch-shift stage and the dither source deliver,
the final output of the synthesizer on a non-empty buffer is hard
clipped, hence elementwise within [-1, 1]. -/
theorem sintetizar_voz_rango (env : Env) (audio : List ℚ) (_hne : audio ≠ [])
    (out : List ℚ) (hout : sintetizar_voz env audio = .ok out) :
    ∀ x ∈ out, -1 ≤ x ∧ x ≤ 1 := by
  unfold sintetizar_voz at hout
  split at hout
  · exact absurd hout (by simp)
  · split at hout
    · exact absurd hout (by simp)
    · rw [Except.ok.injEq] at hout
      subst hout
      intro x hx
      rcases List.mem_map.mp hx with ⟨z, _, rfl⟩
      exact clip1_bounds z

/-- C6 witness: a synthesized run whose dither pushes a sample above 1
before the clip; the clipped sample 1 is inside the range. -/
theorem sintetizar_voz_rango_witness :
    sintetizar_voz envRango [5] = Except.ok [1] ∧
      (-1 ≤ (1 : ℚ) ∧ (1 : ℚ) ≤ 1) :=
  ⟨by norm_num [sintetizar_voz, envRango, envBase, pyMaxAbs, peakAbs, clip1],
   sintetizar_voz_rango envRango [5] (by simp) [1]
     (by norm_num [sintetizar_voz, envRango, envBase, pyMaxAbs, peakAbs, clip1])
     1 (by simp)⟩

/-- C7: the dither amplitude is exactly 1/512; when the pitch-shifted
signal is constant zero (so the -1 dBFS scaling is skipped) and every
dither draw lies within the amplitude passed to the uniform sampler,
every sample of the final synthesized output lies within
[-1/512, 1/512]. -/
theorem sintetizar_voz_dither (env : Env) (audio z out : List ℚ)
    (hz : env.pitchShift audio = .ok z) (hne : z ≠ [])
    (hzero : ∀ x ∈ z, x = 0)
    (hd : ∀ i, |env.ditherSample i| ≤ dither_amplitude)
    (hout : sintetizar_voz env audio = .ok out) :
    dither_amplitude = 1/512 ∧ ∀ x ∈ out, |x| ≤ 1/512 := by
  have hamp : dither_amplitude = 1/512 := by norm_num [dither_amplitude]
  refine ⟨hamp, ?_⟩
  have hpk : peakAbs z = 0 := peakAbs_eq_zero_of_all_zero hzero
  have hmax : pyMaxAbs z = .ok 0 := by
    cases z with
    | nil => exact absurd rfl hne
    | cons a l =>
        show Except.ok (peakAbs (a :: l)) = Except.ok 0
        rw [hpk]
  unfold sintetizar_voz at hout
  simp only [hz, hmax, lt_self_iff_false, if_false, Except.ok.injEq] at hout
  subst hout
  intro x hx
  rcases List.mem_map.mp hx with ⟨w, hw, rfl⟩
  rcases of_mem_zipWith hw with ⟨a, ha, b, hb, rfl⟩
  rcases List.mem_map.mp hb with ⟨i, _, rfl⟩
  have hbb : |env.ditherSample i| ≤ 1/512 := hamp ▸ hd i
  have hab := abs_le.mp hbb
  have ha0 : a = 0 := hzero a ha
  subst ha0
  have h1 : clip1 (0 + env.ditherSample i) = env.ditherSample i := by
    unfold clip1
    rw [zero_add, min_eq_right (le_trans hab.2 (by norm_num)),
      max_eq_right (le_trans (by norm_num) hab.1)]
  rw [h1]
  exact hbb

/-- C7 witness: constant-zero pitch-shift output with dither draws of
1/1000. -/
theorem sintetizar_voz_dither_witness :
    dither_amplitude = 1/512 ∧ ∀ x ∈ ([1/1000, 1/1000] : List ℚ), |x| ≤ 1/512 :=
  sintetizar_voz_dither envDit [0] [0, 0] [1/1000, 1/1000] rfl (by simp)
    (by intro x hx; rcases List.mem_cons.mp hx with rfl | hx2; · rfl
        · rcases List.mem_cons.mp hx2 with rfl | hx3; · rfl
          · cases hx3)
    (fun i => by
      show |(1:ℚ)/1000| ≤ dither_amplitude
      rw [abs_of_nonneg (by norm_num : (0:ℚ) ≤ 1/1000)]
      norm_num [dither_amplitude])
    (by norm_num [sintetizar_voz, envDit, envBase, pyMaxAbs, peakAbs, clip1,
          List.replicate, min_def, max_def])

/-- C9: transcription returns the text or None and never propagates a
recognizer failure, and a run writes the transcript file only when
transcription returned a text. -/
theorem transcribir_audio_contrato :
    (∀ (rz : String → String → Except String String) (ruta idioma : String),
      (∀ e, rz ruta idioma = .error e →
        transcribir_audio rz ruta idioma = Option.none) ∧
      (∀ t, rz ruta idioma = .ok t →
        transcribir_audio rz ruta idioma = some t)) ∧
    (∀ (env : Env) (st : EngineState) (nb : String) (d : ℚ) (carpeta : String),
      (proceso_completo env st nb d carpeta).2.2.txtWritten = true →
      (transcribir_audio env.recognize
        (carpeta ++ "/" ++ nb ++ ".wav") "es-MX").isSome = true) := by
  constructor
  · intro rz ruta idioma
    exact ⟨fun e he => by simp [transcribir_audio, he],
           fun t ht => by simp [transcribir_audio, ht]⟩
  · intro env st nb d carpeta h
    simp only [proceso_completo] at h
    repeat' split at h
    all_goals simp_all [RunEvents.none]

/-- C9 witness: a run in which every stage succeeds and the recognizer
returns a non-empty transcript, so the transcript file gets written. -/
theorem transcribir_audio_contrato_witness :
    (transcribir_audio envTx.recognize
      ("out" ++ "/" ++ "voz" ++ ".wav") "es-MX").isSome = true :=
  transcribir_audio_contrato.2 envTx EngineState.init "voz" 1 "out"
    (by norm_num [proceso_completo, grabar_audio, procesar_audio, preemphasis,
          normalizar_095, pyMaxAbs, peakAbs, pre_emphasis_coef, sintetizar_voz,
          transcribir_audio, clip1, envTx, envBase, RunEvents.none,
          min_def, max_def]
        rw [if_neg (by decide : ¬("hola mundo" = ""))])

/-- C1: proceso_completo is total — every stage fault ends in the
structured failure dictionary — and the dictionary is well formed: on
success it carries the four file paths, the processed buffer, the real
duration and the onset offset; on failure it carries an error text and
the stored (possibly absent) partially-processed buffer. -/
theorem proceso_completo_contrato (env : Env) (st : EngineState)
    (nb : String) (d : ℚ) (carpeta : String) :
    if (proceso_completo env st nb d carpeta).1.success = true then
      (proceso_completo env st nb d carpeta).1.wav =
          some (carpeta ++ "/" ++ nb ++ ".wav") ∧
      (proceso_completo env st nb d carpeta).1.csv =
          some (carpeta ++ "/" ++ nb ++ "_matriz.csv") ∧
      (proceso_completo env st nb d carpeta).1.txt =
          some (carpeta ++ "/" ++ nb ++ ".txt") ∧
      (proceso_completo env st nb d carpeta).1.synth =
          some (carpeta ++ "/" ++ nb ++ "_synth.wav") ∧
      ((proceso_completo env st nb d carpeta).1.audio_procesado).isSome = true ∧
      ((proceso_completo env st nb d carpeta).1.duracion).isSome = true ∧
      ((proceso_completo env st nb d carpeta).1.inicio_ms).isSome = true ∧
      (proceso_completo env st nb d carpeta).1.error = Option.none
    else
      ((proceso_completo env st nb d carpeta).1.error).isSome = true ∧
      (proceso_completo env st nb d carpeta).1.audio_procesado =
        (proceso_completo env st nb d carpeta).2.1.current_audio_processed := by
  simp only [proceso_completo]
  repeat' split
  all_goals simp_all [fallo]

/-- C2 [code bug]: on a fully silent capture the trim stage returns an
empty region and procesar_audio then raises an IndexError inside the
pre-emphasis step (np.append(y[0], ...) on an empty array), so the run
ends with success = False and an error — not the successful
zero-duration result the specification requires — and synthesis and
transcription are skipped only because the run aborted. -/
theorem proceso_captura_silenciosa :
    (proceso_completo envSilencio EngineState.init "voz" 3 "./output").1.success
      = false ∧
    (proceso_completo envSilencio EngineState.init "voz" 3 "./output").1.error
      = some "index 0 is out of bounds for axis 0 with size 0" ∧
    (proceso_completo envSilencio EngineState.init "voz" 3 "./output").2.2.synthInvoked
      = false ∧
    (proceso_completo envSilencio EngineState.init "voz" 3 "./output").2.2.transcribeInvoked
      = false :=
  ⟨rfl, rfl, rfl, rfl⟩

theorem estado_tras_proceso (env : Env) (st : EngineState) (nb : String)
    (d : ℚ) (carpeta : String) :
    (proceso_completo env st nb d carpeta).2.1.current_audio_processed =
      match conditioning_result env d with
      | some a => some a
      | Option.none => st.current_audio_processed := by
  simp only [proceso_completo, conditioning_result]
  repeat' split
  all_goals simp_all

/-- C10: the buffer of a failure result is the stored
current_audio_processed field: it is None right after construction, it
is left untouched by a run whose conditioning prefix fails (so a later
failure reports the most recent earlier successful conditioning), and
it is overwritten with the freshly conditioned buffer as soon as
procesar_audio completes; over any sequence of runs the field holds the
conditioned buffer of the last run whose conditioning succeeded. -/
theorem procedencia_buffer :
    EngineState.init.current_audio_processed = Option.none ∧
    (∀ (env : Env) (st : EngineState) (nb : String) (d : ℚ) (carpeta : String),
      ((proceso_completo env st nb d carpeta).1.success = false →
        (proceso_completo env st nb d carpeta).1.audio_procesado =
          (proceso_completo env st nb d carpeta).2.1.current_audio_processed) ∧
      (conditioning_result env d = Option.none →
        (proceso_completo env st nb d carpeta).2.1.current_audio_processed =
          st.current_audio_processed) ∧
      (∀ a, conditioning_result env d = some a →
        (proceso_completo env st nb d carpeta).2.1.current_audio_processed =
          some a)) ∧
    (∀ (st : EngineState) (runs : List RunArgs),
      (run_sequence st runs).current_audio_processed =
        runs.foldl (fun acc r =>
          match conditioning_result r.env r.duracion with
          | some a => some a
          | Option.none => acc) st.current_audio_processed) := by
  refine ⟨rfl, ?_, ?_⟩
  · intro env st nb d carpeta
    refine ⟨?_, ?_, ?_⟩
    · simp only [proceso_completo]
      repeat' split
      all_goals simp_all [fallo]
    · intro h
      rw [estado_tras_proceso, h]
    · intro a h
      rw [estado_tras_proceso, h]
  · intro st runs
    induction runs generalizing st with
    | nil => rfl
    | cons r rs ih =>
      simp only [run_sequence, List.foldl_cons] at ih ⊢
      rw [ih, estado_tras_proceso]

/-- C10 witness: a run dying at warm-up on an engine that already holds
a conditioned buffer from an earlier run. -/
theorem procedencia_buffer_witness :
    (proceso_completo envFalla { current_audio_processed := some [1] }
        "voz" 1 "out").1.audio_procesado =
      (proceso_completo envFalla { current_audio_processed := some [1] }
        "voz" 1 "out").2.1.current_audio_processed ∧
    (proceso_completo envFalla { current_audio_processed := some [1] }
        "voz" 1 "out").2.1.current_audio_processed = some [1] :=
  ⟨(procedencia_buffer.2.1 envFalla { current_audio_processed := some [1] }
      "voz" 1 "out").1 rfl,
   (procedencia_buffer.2.1 envFalla { current_audio_processed := some [1] }
      "voz" 1 "out").2.1 rfl⟩

theorem linspace_length (a b : ℚ) (n : ℕ) : (linspace a b n).length = n := by
  unfold linspace
  split
  · simp_all
  · simp

theorem linspace_get? (a b : ℚ) {n k : ℕ} (hn : n ≠ 1) (hk : k < n) :
    (linspace a b n)[k]? =
      some ((a : ℝ) + ((b : ℝ) - (a : ℝ)) * (k : ℝ) / ((n : ℝ) - 1)) := by
  unfold linspace
  rw [if_neg hn, List.getElem?_map, List.getElem?_range hk]
  rfl

theorem applyFadeIn_length (m : ℕ) (l : List ℝ) :
    (applyFadeIn m l).length = l.length := by
  simp only [applyFadeIn, List.length_append, List.length_zipWith,
    List.length_take, List.length_drop, linspace_length]
  omega

theorem applyFadeOut_length (m : ℕ) (l : List ℝ) :
    (applyFadeOut m l).length = l.length := by
  simp only [applyFadeOut, List.length_append, List.length_zipWith,
    List.length_take, List.length_drop, linspace_length]
  omega

theorem applyFadeIn_get?_lt {m k : ℕ} {l : List ℝ} {v : ℝ}
    (hm : m ≤ l.length) (hm1 : m ≠ 1) (hk : k < m) (hv : l[k]? = some v) :
    (applyFadeIn m l)[k]? = some (v * ((k : ℝ) / ((m : ℝ) - 1))) := by
  have hzlen :
      (List.zipWith (fun x c => x * c) (l.take m) (linspace 0 1 m)).length = m := by
    simp only [List.length_zipWith, List.length_take, linspace_length]
    omega
  unfold applyFadeIn
  rw [List.getElem?_append_left (by rw [hzlen]; exact hk)]
  refine (List.getElem?_zipWith_eq_some).mpr
    ⟨v, (k : ℝ) / ((m : ℝ) - 1), ?_, ?_, rfl⟩
  · rw [List.getElem?_take_of_lt hk]; exact hv
  · rw [linspace_get? 0 1 hm1 hk]
    norm_num

theorem applyFadeIn_get?_ge {m k : ℕ} {l : List ℝ} (hm : m ≤ l.length)
    (hk : m ≤ k) : (applyFadeIn m l)[k]? = l[k]? := by
  have hzlen :
      (List.zipWith (fun x c => x * c) (l.take m) (linspace 0 1 m)).length = m := by
    simp only [List.length_zipWith, List.length_take, linspace_length]
    omega
  unfold applyFadeIn
  rw [List.getElem?_append_right (by rw [hzlen]; exact hk), hzlen,
    List.getElem?_drop, Nat.add_sub_cancel' hk]

theorem applyFadeOut_get?_lt {m k : ℕ} {l : List ℝ} (hk : k < l.length - m) :
    (applyFadeOut m l)[k]? = l[k]? := by
  unfold applyFadeOut
  rw [List.getElem?_append_left
    (by simp only [List.length_take]; omega)]
  exact List.getElem?_take_of_lt hk

theorem applyFadeOut_get?_ge {m k : ℕ} {l : List ℝ} {v : ℝ}
    (hm : m ≤ l.length) (hm1 : m ≠ 1) (hk1 : l.length - m ≤ k)
    (hk2 : k < l.length) (hv : l[k]? = some v) :
    (applyFadeOut m l)[k]? =
      some (v * (1 - ((k - (l.length - m) : ℕ) : ℝ) / ((m : ℝ) - 1))) := by
  have htlen : (l.take (l.length - m)).length = l.length - m := by
    simp only [List.length_take]; omega
  unfold applyFadeOut
  rw [List.getElem?_append_right (by rw [htlen]; exact hk1), htlen]
  refine (List.getElem?_zipWith_eq_some).mpr
    ⟨v, 1 - ((k - (l.length - m) : ℕ) : ℝ) / ((m : ℝ) - 1), ?_, ?_, rfl⟩
  · rw [List.getElem?_drop, Nat.add_sub_cancel' hk1]
    exact hv
  · have hj : k - (l.length - m) < m := by omega
    rw [linspace_get? 1 0 hm1 hj]
    simp only [Option.some.injEq]
    push_cast
    ring

theorem fades_bound (bp : List ℝ) (hlen : 80 ≤ bp.length)
    (hb : ∀ (k : ℕ) (v : ℝ), bp[k]? = some v → |v| ≤ 3/10) :
    ((applyFadeOut 80 (applyFadeIn 80 bp)).length = bp.length) ∧
    (∀ (k : ℕ) (v : ℝ), (applyFadeOut 80 (applyFadeIn 80 bp))[k]? = some v →
      |v| ≤ 3/10) ∧
    (∀ (k : ℕ) (v : ℝ), k < 80 →
      (applyFadeOut 80 (applyFadeIn 80 bp))[k]? = some v →
      |v| ≤ 3/10 * ((k : ℝ) / 79)) ∧
    (∀ (k : ℕ) (v : ℝ), k < 80 →
      (applyFadeOut 80 (applyFadeIn 80 bp))[bp.length - 1 - k]? = some v →
      |v| ≤ 3/10 * ((k : ℝ) / 79)) := by
  have h791 : (((80 : ℕ) : ℝ) - 1) = 79 := by norm_num
  have hmlen : (applyFadeIn 80 bp).length = bp.length := applyFadeIn_length _ _
  -- fade-in keeps every sample below the raw bound
  have hmidb : ∀ (k : ℕ) (v : ℝ), (applyFadeIn 80 bp)[k]? = some v → |v| ≤ 3/10 := by
    intro k v hv
    by_cases hk : k < 80
    · have hkl : k < bp.length := lt_of_lt_of_le hk hlen
      have hu : bp[k]? = some bp[k] := List.getElem?_eq_getElem hkl
      rw [applyFadeIn_get?_lt hlen (by norm_num) hk hu] at hv
      have hv2 := Option.some.inj hv
      rw [← hv2, abs_mul, h791]
      have hfac0 : (0 : ℝ) ≤ (k : ℝ) / 79 := by positivity
      have hfac1 : (k : ℝ) / 79 ≤ 1 := by
        rw [div_le_one (by norm_num)]
        exact_mod_cast (by omega : k ≤ 79)
      calc |bp[k]| * |(k : ℝ) / 79| ≤ (3/10) * 1 := by
            rw [abs_of_nonneg hfac0]
            exact mul_le_mul (hb k _ hu) hfac1 hfac0 (by norm_num)
        _ = 3/10 := by ring
    · rw [applyFadeIn_get?_ge hlen (le_of_not_lt hk)] at hv
      exact hb k v hv
  -- fade-in imposes the ramp bound on the first 80 samples
  have hmidk : ∀ (k : ℕ) (v : ℝ), k < 80 → (applyFadeIn 80 bp)[k]? = some v →
      |v| ≤ 3/10 * ((k : ℝ) / 79) := by
    intro k v hk hv
    have hkl : k < bp.length := lt_of_lt_of_le hk hlen
    have hu : bp[k]? = some bp[k] := List.getElem?_eq_getElem hkl
    rw [applyFadeIn_get?_lt hlen (by norm_num) hk hu] at hv
    have hv2 := Option.some.inj hv
    rw [← hv2, abs_mul, h791, abs_of_nonneg (by positivity : (0:ℝ) ≤ (k : ℝ) / 79)]
    exact mul_le_mul_of_nonneg_right (hb k _ hu) (by positivity)
  have houtlen : (applyFadeOut 80 (applyFadeIn 80 bp)).length = bp.length := by
    rw [applyFadeOut_length, hmlen]
  refine ⟨houtlen, ?_, ?_, ?_⟩
  · intro k v hv
    by_cases hk : k < (applyFadeIn 80 bp).length - 80
    · rw [applyFadeOut_get?_lt hk] at hv
      exact hmidb _ _ hv
    · by_cases hk2 : k < (applyFadeIn 80 bp).length
      · have hu : (applyFadeIn 80 bp)[k]? = some (applyFadeIn 80 bp)[k] :=
          List.getElem?_eq_getElem hk2
        rw [applyFadeOut_get?_ge (by omega) (by norm_num)
          (le_of_not_lt hk) hk2 hu] at hv
        have hv2 := Option.some.inj hv
        rw [← hv2, abs_mul, h791]
        have hj : (k - ((applyFadeIn 80 bp).length - 80)) ≤ 79 := by omega
        have hjr : ((k - ((applyFadeIn 80 bp).length - 80) : ℕ) : ℝ) ≤ 79 := by
          exact_mod_cast hj
        have hj0 : (0 : ℝ) ≤ ((k - ((applyFadeIn 80 bp).length - 80) : ℕ) : ℝ) :=
          Nat.cast_nonneg _
        have hfac : |1 - ((k - ((applyFadeIn 80 bp).length - 80) : ℕ) : ℝ) / 79| ≤ 1 := by
          rw [abs_le]
          constructor
          · have : ((k - ((applyFadeIn 80 bp).length - 80) : ℕ) : ℝ) / 79 ≤ 1 := by
              rw [div_le_one (by norm_num)]; exact hjr
            linarith
          · have : (0:ℝ) ≤ ((k - ((applyFadeIn 80 bp).length - 80) : ℕ) : ℝ) / 79 := by
              positivity
            linarith
        calc |(applyFadeIn 80 bp)[k]| *
              |1 - ((k - ((applyFadeIn 80 bp).length - 80) : ℕ) : ℝ) / 79|
              ≤ (3/10) * 1 :=
            mul_le_mul (hmidb k _ hu) hfac (abs_nonneg _) (by norm_num)
          _ = 3/10 := by ring
      · rw [List.getElem?_eq_none (by omega : (applyFadeOut 80 (applyFadeIn 80 bp)).length ≤ k)] at hv
        cases hv
  · intro k v hk hv
    by_cases hs : k < (applyFadeIn 80 bp).length - 80
    · rw [applyFadeOut_get?_lt hs] at hv
      exact hmidk k v hk hv
    · have hk2 : k < (applyFadeIn 80 bp).length := by omega
      have hu : (applyFadeIn 80 bp)[k]? = some (applyFadeIn 80 bp)[k] :=
        List.getElem?_eq_getElem hk2
      rw [applyFadeOut_get?_ge (by omega) (by norm_num)
        (le_of_not_lt hs) hk2 hu] at hv
      have hv2 := Option.some.inj hv
      rw [← hv2, abs_mul, h791]
      have hj : (k - ((applyFadeIn 80 bp).length - 80)) ≤ 79 := by omega
      have hjr : ((k - ((applyFadeIn 80 bp).length - 80) : ℕ) : ℝ) ≤ 79 := by
        exact_mod_cast hj
      have hfac : |1 - ((k - ((applyFadeIn 80 bp).length - 80) : ℕ) : ℝ) / 79| ≤ 1 := by
        rw [abs_le]
        constructor
        · have : ((k - ((applyFadeIn 80 bp).length - 80) : ℕ) : ℝ) / 79 ≤ 1 := by
            rw [div_le_one (by norm_num)]; exact hjr
          linarith
        · have : (0:ℝ) ≤ ((k - ((applyFadeIn 80 bp).length - 80) : ℕ) : ℝ) / 79 := by
            positivity
          linarith
      calc |(applyFadeIn 80 bp)[k]| *
            |1 - ((k - ((applyFadeIn 80 bp).length - 80) : ℕ) : ℝ) / 79|
            ≤ (3/10 * ((k : ℝ) / 79)) * 1 :=
          mul_le_mul (hmidk k _ hk hu) hfac (abs_nonneg _) (by positivity)
        _ = 3/10 * ((k : ℝ) / 79) := by ring
  · intro k v hk hv
    have hi1 : (applyFadeIn 80 bp).length - 80 ≤ bp.length - 1 - k := by omega
    have hi2 : bp.length - 1 - k < (applyFadeIn 80 bp).length := by omega
    have hu : (applyFadeIn 80 bp)[bp.length - 1 - k]? =
        some (applyFadeIn 80 bp)[bp.length - 1 - k] :=
      List.getElem?_eq_getElem hi2
    rw [applyFadeOut_get?_ge (by omega) (by norm_num) hi1 hi2 hu] at hv
    have hv2 := Option.some.inj hv
    have hjeq : (bp.length - 1 - k) - ((applyFadeIn 80 bp).length - 80) = 79 - k := by
      omega
    rw [hjeq] at hv2
    have hcast : ((79 - k : ℕ) : ℝ) = 79 - (k : ℝ) := by
      rw [Nat.cast_sub (by omega : k ≤ 79)]
      norm_num
    have hfac : 1 - ((79 - k : ℕ) : ℝ) / (((80 : ℕ) : ℝ) - 1) = (k : ℝ) / 79 := by
      rw [hcast, h791]
      field_simp
    rw [← hv2, hfac, abs_mul, abs_of_nonneg (by positivity : (0:ℝ) ≤ (k : ℝ) / 79)]
    exact mul_le_mul_of_nonneg_right (hmidb _ _ hu) (by positivity)

/-- C8 [corrected]: for int(8000 * d) >= 80 — i.e. whenever the
80-sample fade fits in the buffer — the tone generator returns a buffer
of int(8000 * d) samples whose peak never exceeds 0.3 and whose first
and last 80 samples are bounded by the linear fade envelope (sample k
from the start, or k from the end, is bounded by 0.3 * k/79, the fade
ramp value); for shorter requests the claim fails because the in-place
fade multiplication is a numpy broadcast error. -/
theorem generar_beep_spec (f d : ℚ) (h80 : 80 ≤ (pyInt (fs * d)).toNat) :
    ∃ out, generar_beep f d = .ok out ∧
      out.length = (pyInt (fs * d)).toNat ∧
      (∀ x ∈ out, |x| ≤ 3/10) ∧
      (∀ (k : ℕ) (v : ℝ), k < 80 → out[k]? = some v →
        |v| ≤ 3/10 * ((k : ℝ) / 79)) ∧
      (∀ (k : ℕ) (v : ℝ), k < 80 → out[out.length - 1 - k]? = some v →
        |v| ≤ 3/10 * ((k : ℝ) / 79)) := by
  have hfade : (pyInt (fs * (1/100))).toNat = 80 := by
    norm_num [pyInt, fs]
    rfl
  set n := (pyInt (fs * d)).toNat with hn
  set bp := (linspace 0 d n).map
    (fun x => (0.3 : ℝ) * Real.sin (2 * Real.pi * (f : ℝ) * x)) with hbp
  have hblen : bp.length = n := by rw [hbp, List.length_map, linspace_length]
  have hb : ∀ (k : ℕ) (v : ℝ), bp[k]? = some v → |v| ≤ 3/10 := by
    intro k v hv
    rw [hbp, List.getElem?_map] at hv
    cases hx : (linspace 0 d n)[k]? with
    | none => rw [hx] at hv; cases hv
    | some x =>
      rw [hx, Option.map_some'] at hv
      have hv2 := Option.some.inj hv
      rw [← hv2, abs_mul, abs_of_nonneg (by norm_num : (0:ℝ) ≤ 0.3)]
      calc (0.3 : ℝ) * |Real.sin (2 * Real.pi * (f : ℝ) * x)| ≤ 0.3 * 1 :=
            mul_le_mul_of_nonneg_left
              (abs_le.mpr ⟨Real.neg_one_le_sin _, Real.sin_le_one _⟩)
              (by norm_num)
        _ = 3/10 := by norm_num
  have hout : generar_beep f d = .ok (applyFadeOut 80 (applyFadeIn 80 bp)) := by
    simp only [generar_beep]
    rw [hfade, ← hn, ← hbp, if_neg (by rw [hblen]; omega)]
  obtain ⟨hl, hbnd, hhead, htail⟩ := fades_bound bp (by rw [hblen]; exact h80) hb
  refine ⟨_, hout, ?_, ?_, ?_, ?_⟩
  · rw [hl, hblen]
  · intro x hx
    obtain ⟨k, hk⟩ := List.getElem?_of_mem hx
    exact hbnd k x hk
  · exact hhead
  · intro k v hk hv
    apply htail k v hk
    rw [hl] at hv
    exact hv

/-- C8 counterexample: at duration 1/200 s (0.005 s) the buffer has
int(8000/200) = 40 samples, shorter than the 80-sample fade, and the
fade multiplication fails instead of returning a tone. -/
theorem generar_beep_contraejemplo :
    generar_beep 800 (1/200) = .error "operands could not be broadcast together" := by
  have h1 : (pyInt (fs * (1/200))).toNat = 40 := by
    norm_num [pyInt, fs]
    rfl
  have h2 : (pyInt (fs * (1/100))).toNat = 80 := by
    norm_num [pyInt, fs]
    rfl
  simp only [generar_beep]
  rw [h1, h2, List.length_map, linspace_length, if_pos (by norm_num)]

/-- C8 witness: the 800 Hz, 0.15 s tone of the specification scenario
(1200 samples, fades intact). -/
theorem generar_beep_spec_witness :
    (∃ out, generar_beep 800 (3/20) = .ok out ∧
      out.length = (pyInt (fs * (3/20))).toNat ∧
      (∀ x ∈ out, |x| ≤ 3/10) ∧
      (∀ (k : ℕ) (v : ℝ), k < 80 → out[k]? = some v →
        |v| ≤ 3/10 * ((k : ℝ) / 79)) ∧
      (∀ (k : ℕ) (v : ℝ), k < 80 → out[out.length - 1 - k]? = some v →
        |v| ≤ 3/10 * ((k : ℝ) / 79))) ∧
    (pyInt (fs * (3/20))).toNat = 1200 := by
  have h : (pyInt (fs * (3/20))).toNat = 1200 := by
    norm_num [pyInt, fs]
    rfl
  exact ⟨generar_beep_spec 800 (3/20) (by rw [h]; norm_num), h⟩
